import Mathlib

/-
Verification of the cfb caching-proxy core (a Go web server that proxies the
College Football Data API and caches responses in Redis).

The embedding follows src/unnamed/part_001 (handlers, preloaders) and
src/redis.go (store adapter).  Generic JSON values decoded by Go's
encoding/json into interface values are modelled by the inductive type Json
below; JSON numbers are modelled as integers (the claims under study only
involve integral values; floating point is out of scope).  The Redis store is
modelled as an association list from keys to the Json value whose encoding the
store holds: SetWithExpiration marshals its argument to a JSON text and Get
unmarshals it back, and for generic values that round trip is structural
identity, so entries are kept as Json values directly.  An overwriting SET is
modelled by prepending the new binding, which shadows older ones for lookup.
Expiration durations are not modelled (all claims are about a single point in
time well inside the one-year TTL).
-/

set_option maxRecDepth 4000

/-- Generic JSON value, as produced by Go's encoding/json when decoding into
an interface value.  Object fields keep their textual order; Go maps are
unordered and re-encode in sorted key order, which coincides with the orders
arising in this development. -/
inductive Json where
  | null
  | bool (b : Bool)
  | num (n : Int)
  | str (s : String)
  | arr (elems : List Json)
  | obj (fields : List (String × Json))

/-- A decoded JSON object, i.e. the field list of a Json.obj. -/
abbrev JObj := List (String × Json)

/-- The Redis database: bindings from key to stored value, newest first. -/
abbrev Store := List (String × Json)

/-- First binding for a key wins; storeSet prepends, so the newest write
shadows older ones, modelling the overwrite semantics of Redis SET
(src/redis.go, SetWithExpiration + Get). -/
def storeGet : Store → String → Option Json
  | [], _ => none
  | (k, v) :: rest, q => if k = q then some v else storeGet rest q

/-- Redis EXISTS (src/redis.go line 86): a key exists iff a value is stored
under it. -/
def storeExists (st : Store) (k : String) : Bool :=
  (storeGet st k).isSome

/-- Redis SET with expiration (src/redis.go line 54): overwrite, modelled by
shadowing. -/
def storeSet (st : Store) (k : String) (v : Json) : Store :=
  (k, v) :: st

/-- The list of keys currently bound in the store (newest first). -/
def storeKeys (st : Store) : List String :=
  st.map Prod.fst

/-- Field lookup in a decoded JSON object, as Go's map indexing after
json.Unmarshal into a map. -/
def jlookup : JObj → String → Option Json
  | [], _ => none
  | (k, v) :: rest, q => if k = q then some v else jlookup rest q

/- ===== JSON text: a small parser modelling encoding/json Unmarshal into an
interface value.  Numbers are integers; the \u escape is not supported (no
claim exercises it). ===== -/

/-- Skip JSON whitespace. -/
def skipWs : List Char → List Char
  | c :: cs =>
    if c = ' ' ∨ c = '\x09' ∨ c = '\x0a' ∨ c = '\x0d' then skipWs cs else c :: cs
  | [] => []

/-- Translation of a single JSON escape character (after a backslash). -/
def escTrans (c : Char) : Option Char :=
  if c = '"' then some '"'
  else if c = '\\' then some '\\'
  else if c = '/' then some '/'
  else if c = 'n' then some '\x0a'
  else if c = 't' then some '\x09'
  else if c = 'r' then some '\x0d'
  else if c = 'b' then some '\x08'
  else if c = 'f' then some '\x0c'
  else none

/-- Parse the remainder of a JSON string literal (the opening quote already
consumed), accumulating decoded characters in reverse. -/
def parseJStringRest : Nat → List Char → List Char → Option (String × List Char)
  | 0, _, _ => none
  | _ + 1, _, [] => none
  | fuel + 1, acc, c :: rest =>
    if c = '"' then some (String.mk acc.reverse, rest)
    else if c = '\\' then
      match rest with
      | [] => none
      | e :: rest2 =>
        match escTrans e with
        | some d => parseJStringRest fuel (d :: acc) rest2
        | none => none
    else parseJStringRest fuel (c :: acc) rest

/-- Leading decimal digits of a character list. -/
def takeDigits : List Char → List Char × List Char
  | [] => ([], [])
  | c :: cs =>
    if '0' ≤ c ∧ c ≤ '9' then
      let (ds, rest) := takeDigits cs
      (c :: ds, rest)
    else ([], c :: cs)

/-- Numeric value of a digit list. -/
def digitsToNat (ds : List Char) : Nat :=
  ds.foldl (fun a c => a * 10 + (c.toNat - 48)) 0

/-- Parse an unsigned JSON integer. -/
def parseNat (cs : List Char) : Option (Nat × List Char) :=
  match takeDigits cs with
  | ([], _) => none
  | (ds, rest) => some (digitsToNat ds, rest)

mutual

/-- Recursive-descent JSON value parser (fuel-indexed). -/
def parseValue : Nat → List Char → Option (Json × List Char)
  | 0, _ => none
  | fuel + 1, cs =>
    match skipWs cs with
    | 'n' :: 'u' :: 'l' :: 'l' :: rest => some (Json.null, rest)
    | 't' :: 'r' :: 'u' :: 'e' :: rest => some (Json.bool true, rest)
    | 'f' :: 'a' :: 'l' :: 's' :: 'e' :: rest => some (Json.bool false, rest)
    | '"' :: rest =>
      match parseJStringRest fuel [] rest with
      | some (s, rest2) => some (Json.str s, rest2)
      | none => none
    | '[' :: rest =>
      (match skipWs rest with
       | ']' :: rest2 => some (Json.arr [], rest2)
       | rest2 => parseElems fuel rest2 [])
    | '\x7b' :: rest =>
      (match skipWs rest with
       | '\x7d' :: rest2 => some (Json.obj [], rest2)
       | rest2 => parseFields fuel rest2 [])
    | '-' :: rest =>
      (match parseNat rest with
       | some (n, rest2) => some (Json.num (-(n : Int)), rest2)
       | none => none)
    | cs2 =>
      (match parseNat cs2 with
       | some (n, rest2) => some (Json.num (n : Int), rest2)
       | none => none)

/-- Parse the elements of a non-empty JSON array, accumulating in reverse. -/
def parseElems : Nat → List Char → List Json → Option (Json × List Char)
  | 0, _, _ => none
  | fuel + 1, cs, acc =>
    match parseValue fuel cs with
    | none => none
    | some (v, rest) =>
      match skipWs rest with
      | ',' :: rest2 => parseElems fuel rest2 (v :: acc)
      | ']' :: rest2 => some (Json.arr (v :: acc).reverse, rest2)
      | _ => none

/-- Parse the fields of a non-empty JSON object, accumulating in reverse. -/
def parseFields : Nat → List Char → List (String × Json) → Option (Json × List Char)
  | 0, _, _ => none
  | fuel + 1, cs, acc =>
    match skipWs cs with
    | '"' :: rest =>
      (match parseJStringRest fuel [] rest with
       | none => none
       | some (k, rest2) =>
         match skipWs rest2 with
         | ':' :: rest3 =>
           (match parseValue fuel rest3 with
            | none => none
            | some (v, rest4) =>
              match skipWs rest4 with
              | ',' :: rest5 => parseFields fuel rest5 ((k, v) :: acc)
              | '\x7d' :: rest5 => some (Json.obj ((k, v) :: acc).reverse, rest5)
              | _ => none)
         | _ => none)
    | _ => none

end

/-- Model of json.Unmarshal of a whole text into an interface value: parse one
value and insist on only whitespace afterwards (Unmarshal rejects trailing
data). -/
def jsonParse (s : String) : Option Json :=
  match parseValue (2 * s.data.length + 2) s.data with
  | some (v, rest) => if (skipWs rest).isEmpty then some v else none
  | none => none

/- ===== JSON text output, modelling json.Encoder with SetIndent two spaces
(used by every handler response) and json.Marshal inside the store
adapter. ===== -/

/-- Lower-case hexadecimal digit. -/
def hexDigit (n : Nat) : String :=
  String.mk [Char.ofNat (if n < 10 then 48 + n else 87 + n)]

/-- Escape one character the way encoding/json does by default (quote,
backslash, control characters, and the HTML-sensitive characters as unicode
escapes). -/
def escapeChar (c : Char) : String :=
  if c = '"' then "\\\""
  else if c = '\\' then "\\\\"
  else if c = '\x0a' then "\\n"
  else if c = '\x09' then "\\t"
  else if c = '\x0d' then "\\r"
  else if c = '<' then "\\u003c"
  else if c = '>' then "\\u003e"
  else if c = '&' then "\\u0026"
  else if c.toNat < 32 then "\\u00" ++ hexDigit (c.toNat / 16) ++ hexDigit (c.toNat % 16)
  else String.mk [c]

/-- The JSON string literal encoding a given Lean string. -/
def jsonQuote (s : String) : String :=
  "\"" ++ String.join (s.data.map escapeChar) ++ "\""

/-- Indentation prefix at a nesting level, for SetIndent with a two-space
unit. -/
def indentOf (lvl : Nat) : String :=
  String.join (List.replicate lvl "  ")

mutual

/-- Render a Json value at a nesting level, as json.Encoder with SetIndent
two spaces writes it. -/
def renderJson : Nat → Json → String
  | _, Json.null => "null"
  | _, Json.bool true => "true"
  | _, Json.bool false => "false"
  | _, Json.num n => toString n
  | _, Json.str s => jsonQuote s
  | _, Json.arr [] => "[]"
  | lvl, Json.arr (x :: xs) =>
    "[\x0a" ++ renderElems (lvl + 1) (x :: xs) ++ "\x0a" ++ indentOf lvl ++ "]"
  | _, Json.obj [] => "\x7b\x7d"
  | lvl, Json.obj (f :: fs) =>
    "\x7b\x0a" ++ renderFields (lvl + 1) (f :: fs) ++ "\x0a" ++ indentOf lvl ++ "\x7d"

/-- Render array elements, one per line, comma separated. -/
def renderElems : Nat → List Json → String
  | _, [] => ""
  | lvl, [x] => indentOf lvl ++ renderJson lvl x
  | lvl, x :: y :: xs =>
    indentOf lvl ++ renderJson lvl x ++ ",\x0a" ++ renderElems lvl (y :: xs)

/-- Render object fields, one per line, comma separated. -/
def renderFields : Nat → List (String × Json) → String
  | _, [] => ""
  | lvl, [(k, v)] => indentOf lvl ++ jsonQuote k ++ ": " ++ renderJson lvl v
  | lvl, (k, v) :: f :: fs =>
    indentOf lvl ++ jsonQuote k ++ ": " ++ renderJson lvl v ++ ",\x0a" ++ renderFields lvl (f :: fs)

end

/- ===== Handler results.  Handlers are modelled as pure functions of the
request parameters, the store (or none when the Redis connection failed at
startup and redisService is nil), and the upstream fetch, returning the
response, the store after the request, and the trace of store operations
performed. ===== -/

/-- A store operation issued by a handler, for the operation trace. -/
inductive StoreOp where
  | existsOp (key : String)
  | getOp (key : String)
  | setOp (key : String)
deriving DecidableEq

/-- The key an operation touches. -/
def StoreOp.opKey : StoreOp → String
  | .existsOp k => k
  | .getOp k => k
  | .setOp k => k

/-- An HTTP response as the handler produces it.  encoded v is the
json.Encoder output of value v with implicit status 200; raw carries the
status actually written (200 when WriteHeader is never called, Go's default)
and the body bytes; err is an http.Error response. -/
inductive Resp where
  | encoded (v : Json)
  | raw (status : Nat) (body : String)
  | err (status : Nat)

/-- The HTTP status of a response.  WriteHeader is never called on the
encoded path, so Go sends 200. -/
def Resp.statusOf : Resp → Nat
  | .encoded _ => 200
  | .raw s _ => s
  | .err s => s

/-- The bytes written to the response body: Encoder output plus its trailing
newline for encoded values, the raw bytes otherwise. -/
def respBytes : Resp → String
  | .encoded v => renderJson 0 v ++ "\x0a"
  | .raw _ b => b
  | .err _ => ""

/-- Result of running a handler once: response, store afterwards, and the
trace of store operations. -/
structure HResult where
  resp : Resp
  store : Option Store
  ops : List StoreOp

/-- An upstream fetch outcome: none is a transport-level failure (client.Do
error, or a body read error), some (status, body) a response that was fully
read. -/
abbrev Fetch := Option (Nat × String)

/-- The result of main's startup Redis connectivity check (src/unnamed/
part_001 lines 26-34): on a ping failure redisService is set to nil and
stays nil for the process lifetime. -/
def startupStore (pingOk : Bool) (st : Store) : Option Store :=
  if pingOk then some st else none

/-- strings.ReplaceAll of a single space by a single underscore, the games
key normalization step (character-wise). -/
def goReplaceSpaces (s : String) : String :=
  String.mk (s.data.map (fun c => if c = ' ' then '_' else c))

/-- strings.ToUpper, modelled character-wise with Char.toUpper, which agrees
with Go on ASCII input (the scope of the claims). -/
def goToUpper (s : String) : String :=
  String.mk (s.data.map Char.toUpper)

/-- The games cache key (src/unnamed/part_001 lines 92-94): the team name
with spaces replaced by underscores, upper-cased, then a colon and the
year. -/
def gamesCacheKey (team year : String) : String :=
  goToUpper (goReplaceSpaces team) ++ ":" ++ year

/-- The rankings cache key (src/unnamed/part_001 line 279). -/
def rankingsCacheKey (year : String) : String :=
  "RANKINGS:" ++ year

/-- The cache-populate step shared by the games and rankings handlers and the
rankings preloader (src/unnamed/part_001 lines 140-156, 323-338, 489-502):
store the body JSON-decoded when it decodes, else store the raw body as a
string. -/
def cachePopulate (st : Store) (key body : String) : Store :=
  match jsonParse body with
  | some parsed => storeSet st key parsed
  | none => storeSet st key (Json.str body)

/-- The fetch-then-respond phase of gamesHandler (src/unnamed/part_001 lines
111-160).  cacheKey is the empty string when no key was computed, exactly as
in the source; the final write never calls WriteHeader, so the status is
200. -/
def gamesFetchPhase (cacheKey : String) (st? : Option Store) (ops : List StoreOp)
    (fetch : Fetch) : HResult :=
  match fetch with
  | none => ⟨Resp.err 502, st?, ops⟩
  | some (_status, body) =>
    if cacheKey ≠ "" then
      match st? with
      | some st =>
        ⟨Resp.raw 200 body, some (cachePopulate st cacheKey body), ops ++ [StoreOp.setOp cacheKey]⟩
      | none => ⟨Resp.raw 200 body, none, ops⟩
    else ⟨Resp.raw 200 body, st?, ops⟩

/-- gamesHandler (src/unnamed/part_001 lines 80-160).  fetchGames maps the
query parameters (year, team) to the upstream outcome. -/
def gamesHandler (year team : String) (redis : Option Store)
    (fetchGames : String → String → Fetch) : HResult :=
  match redis with
  | none => gamesFetchPhase "" none [] (fetchGames year team)
  | some st =>
    if team = "" then gamesFetchPhase "" (some st) [] (fetchGames year team)
    else
      let key := gamesCacheKey team year
      if storeExists st key then
        match storeGet st key with
        | some v => ⟨Resp.encoded v, some st, [StoreOp.existsOp key, StoreOp.getOp key]⟩
        | none =>
          gamesFetchPhase key (some st) [StoreOp.existsOp key, StoreOp.getOp key]
            (fetchGames year team)
      else gamesFetchPhase key (some st) [StoreOp.existsOp key] (fetchGames year team)

/-- The fetch-then-respond phase of rankingsHandler (src/unnamed/part_001
lines 297-342): identical to the games phase except the key always exists and
cache population is unconditional when the store is available. -/
def rankingsFetchPhase (key : String) (st? : Option Store) (ops : List StoreOp)
    (fetch : Fetch) : HResult :=
  match fetch with
  | none => ⟨Resp.err 502, st?, ops⟩
  | some (_status, body) =>
    match st? with
    | some st =>
      ⟨Resp.raw 200 body, some (cachePopulate st key body), ops ++ [StoreOp.setOp key]⟩
    | none => ⟨Resp.raw 200 body, none, ops⟩

/-- rankingsHandler (src/unnamed/part_001 lines 272-342). -/
def rankingsHandler (year : String) (redis : Option Store)
    (fetchRankings : String → Fetch) : HResult :=
  let key := rankingsCacheKey year
  match redis with
  | none => rankingsFetchPhase key none [] (fetchRankings year)
  | some st =>
    if storeExists st key then
      match storeGet st key with
      | some v => ⟨Resp.encoded v, some st, [StoreOp.existsOp key, StoreOp.getOp key]⟩
      | none =>
        rankingsFetchPhase key (some st) [StoreOp.existsOp key, StoreOp.getOp key]
          (fetchRankings year)
    else rankingsFetchPhase key (some st) [StoreOp.existsOp key] (fetchRankings year)

/- ===== Teams simplification (src/unnamed/part_001 lines 216-251, duplicated
verbatim in preloadTeamsCache lines 410-441). ===== -/

/-- Unmarshal of one array element into a Go map: objects give their fields,
a JSON null gives the nil map, anything else fails. -/
def asRecord : Json → Option JObj
  | Json.obj fs => some fs
  | Json.null => some []
  | _ => none

/-- Unmarshal of a list of elements into Go maps, failing if any element
does. -/
def asRecordList : List Json → Option (List JObj)
  | [] => some []
  | j :: js =>
    match asRecord j, asRecordList js with
    | some r, some rs => some (r :: rs)
    | _, _ => none

/-- Unmarshal of a JSON value into a Go slice of maps: an array of records,
or null for the nil slice. -/
def asRecords : Json → Option (List JObj)
  | Json.arr es => asRecordList es
  | Json.null => some []
  | _ => none

/-- json.Unmarshal of the upstream body into a slice of maps, the teams
handlers' decoding step. -/
def decodeTeamsBody (body : String) : Option (List JObj) :=
  match jsonParse body with
  | some v => asRecords v
  | none => none

/-- The Team struct of the teams handlers.  id is an interface value whose
zero value nil encodes as JSON null; alias carries the struct tag school
with omitempty, so it is serialized under the JSON key school and dropped
when empty. -/
structure GoTeam where
  id : Json
  name : String
  aliasStr : String

/-- The id field: the record's id value when present, else the nil interface
(JSON null). -/
def idField (t : JObj) : Json :=
  match jlookup t "id" with
  | some v => v
  | none => Json.null

/-- Name and alias from the school field: both set when school is present
and is a string, both empty otherwise. -/
def schoolField (t : JObj) : String × String :=
  match jlookup t "school" with
  | some (Json.str s) => (s, s)
  | _ => ("", "")

/-- The name fallback: when the name so far is empty, use the record's name
field if it is a string. -/
def nameFallback (t : JObj) (n : String) : String :=
  if n = "" then
    match jlookup t "name" with
    | some (Json.str s) => s
    | _ => ""
  else n

/-- Simplification of one upstream team record, per the loop body of the
teams handlers. -/
def simplifyTeam (t : JObj) : GoTeam :=
  ⟨idField t, nameFallback t (schoolField t).1, (schoolField t).2⟩

/-- Simplification of the whole upstream array, appending one output entry
per record as the Go loop does. -/
def simplifyTeams (raws : List JObj) : List GoTeam :=
  raws.foldl (fun out t => out ++ [simplifyTeam t]) []

/-- JSON encoding of one Team struct: fields in declaration order under their
struct-tag keys id, name, school; school omitted when empty (omitempty). -/
def GoTeam.toJson (t : GoTeam) : Json :=
  Json.obj ([("id", t.id), ("name", Json.str t.name)] ++
    (if t.aliasStr = "" then [] else [("school", Json.str t.aliasStr)]))

/-- JSON encoding of the simplified team list. -/
def teamsJson (ts : List GoTeam) : Json :=
  Json.arr (ts.map GoTeam.toJson)

/-- The fetch-then-simplify phase of teamsHandler (src/unnamed/part_001 lines
191-268): on an unparseable body the raw bytes and the original upstream
status are forwarded and nothing is cached; otherwise the simplified array is
cached (best effort) and encoded. -/
def teamsFetchPhase (st? : Option Store) (ops : List StoreOp) (fetch : Fetch) : HResult :=
  match fetch with
  | none => ⟨Resp.err 502, st?, ops⟩
  | some (status, body) =>
    match decodeTeamsBody body with
    | none => ⟨Resp.raw status body, st?, ops⟩
    | some raws =>
      let out := teamsJson (simplifyTeams raws)
      match st? with
      | some st =>
        ⟨Resp.encoded out, some (storeSet st "CFB_TEAMS" out), ops ++ [StoreOp.setOp "CFB_TEAMS"]⟩
      | none => ⟨Resp.encoded out, none, ops⟩

/-- teamsHandler (src/unnamed/part_001 lines 164-268).  The year parameter is
used only in the upstream URL; the cache key is the global CFB_TEAMS.  A hit
requires the cached value to decode into a slice of maps, else the handler
falls through to the fetch. -/
def teamsHandler (year : String) (redis : Option Store)
    (fetchTeams : String → Fetch) : HResult :=
  match redis with
  | none => teamsFetchPhase none [] (fetchTeams year)
  | some st =>
    if storeExists st "CFB_TEAMS" then
      match storeGet st "CFB_TEAMS" with
      | some v =>
        if (asRecords v).isSome then
          ⟨Resp.encoded v, some st, [StoreOp.existsOp "CFB_TEAMS", StoreOp.getOp "CFB_TEAMS"]⟩
        else
          teamsFetchPhase (some st) [StoreOp.existsOp "CFB_TEAMS", StoreOp.getOp "CFB_TEAMS"]
            (fetchTeams year)
      | none =>
        teamsFetchPhase (some st) [StoreOp.existsOp "CFB_TEAMS", StoreOp.getOp "CFB_TEAMS"]
          (fetchTeams year)
    else teamsFetchPhase (some st) [StoreOp.existsOp "CFB_TEAMS"] (fetchTeams year)

/- ===== Startup preloaders (src/unnamed/part_001 lines 374-507), run by main
only when the Redis connection succeeded. ===== -/

/-- preloadTeamsCache (src/unnamed/part_001 lines 375-450): no-op when
CFB_TEAMS exists; otherwise fetch the current year's teams, and on any fetch,
decode or cache failure return leaving the store unchanged (main only logs
the error). -/
def preloadTeamsCache (fetchTeams : String → Fetch) (currentYear : String) (st : Store) : Store :=
  if storeExists st "CFB_TEAMS" then st
  else
    match fetchTeams currentYear with
    | none => st
    | some (_status, body) =>
      match decodeTeamsBody body with
      | none => st
      | some raws => storeSet st "CFB_TEAMS" (teamsJson (simplifyTeams raws))

/-- One iteration of the rankings preload loop (src/unnamed/part_001 lines
456-505): skip when the key exists; a fetch failure leaves the store
unchanged; a cache-write failure (writeOk false) likewise; otherwise populate
with the decode-or-raw-string rule. -/
def preloadYear (fetchRankings : String → Fetch) (writeOk : Nat → Bool)
    (st : Store) (y : Nat) : Store :=
  let key := rankingsCacheKey (toString y)
  if storeExists st key then st
  else
    match fetchRankings (toString y) with
    | none => st
    | some (_status, body) =>
      if writeOk y then cachePopulate st key body else st

/-- preloadRankingsCache (src/unnamed/part_001 lines 453-507): iterate the
years 1900 through the current year inclusive, ascending, continuing past
per-year failures. -/
def preloadRankingsCache (fetchRankings : String → Fetch) (writeOk : Nat → Bool)
    (current : Nat) (st : Store) : Store :=
  (List.range' 1900 (current + 1 - 1900)).foldl (preloadYear fetchRankings writeOk) st

/- ===== Upstream client timeouts, seconds (the Timeout field of each
http.Client literal). ===== -/

/-- gamesHandler on-demand client timeout (src/unnamed/part_001 line 125). -/
def gamesHandlerTimeoutSec : Nat := 10

/-- teamsHandler on-demand client timeout (src/unnamed/part_001 line 201). -/
def teamsHandlerTimeoutSec : Nat := 10

/-- rankingsHandler on-demand client timeout (src/unnamed/part_001 line
308). -/
def rankingsHandlerTimeoutSec : Nat := 10

/-- preloadTeamsCache client timeout (src/unnamed/part_001 line 398). -/
def preloadTeamsTimeoutSec : Nat := 10

/-- preloadRankingsCache client timeout (src/unnamed/part_001 line 476). -/
def preloadRankingsTimeoutSec : Nat := 30

/-- The top-level keys of a JSON object (empty for non-objects). -/
def jsonTopKeys : Json → List String
  | Json.obj fs => fs.map Prod.fst
  | _ => []

/- ===== Shared lemmas ===== -/

theorem storeGet_set_self (st : Store) (k : String) (v : Json) :
    storeGet (storeSet st k v) k = some v := by
  simp [storeGet, storeSet]

theorem storeExists_set_self (st : Store) (k : String) (v : Json) :
    storeExists (storeSet st k v) k = true := by
  simp [storeExists, storeGet_set_self]

theorem gamesCacheKey_ne_empty (t y : String) : gamesCacheKey t y ≠ "" := by
  intro h
  have hd : (gamesCacheKey t y).data = [] := by rw [h]
  unfold gamesCacheKey at hd
  rw [String.data_append, String.data_append] at hd
  simp at hd

theorem simplifyTeams_eq_map (raws : List JObj) :
    simplifyTeams raws = raws.map simplifyTeam := by
  have haux : ∀ (rs : List JObj) (acc : List GoTeam),
      rs.foldl (fun out t => out ++ [simplifyTeam t]) acc = acc ++ rs.map simplifyTeam := by
    intro rs
    induction rs with
    | nil => intro acc; simp
    | cons h t ih => intro acc; simp [ih]
  simpa using haux raws []

theorem asRecordList_toJson (ts : List GoTeam) :
    (asRecordList (ts.map GoTeam.toJson)).isSome = true := by
  induction ts with
  | nil => rfl
  | cons h t ih =>
    simp only [List.map_cons, asRecordList, GoTeam.toJson, asRecord]
    cases hrest : asRecordList (t.map GoTeam.toJson) with
    | none => rw [hrest] at ih; simp at ih
    | some rs => simp

theorem asRecords_teamsJson_isSome (ts : List GoTeam) :
    (asRecords (teamsJson ts)).isSome = true := by
  simpa [teamsJson, asRecords] using asRecordList_toJson ts

/- ===== Claim theorems ===== -/

/-- C1, counterexample: a games request with a team filter whose upstream
fetch returns status 500 and the non-JSON body oops is answered with status
200 (WriteHeader is never called on this path) carrying the raw body, and
the body IS written to the cache as a raw JSON string, contradicting the
claim that the original status is forwarded and nothing is cached. -/
theorem c1_counterexample :
    (gamesHandler "2023" "OSU" (some []) (fun _ _ => some (500, "oops"))).resp.statusOf = 200
    ∧ (gamesHandler "2023" "OSU" (some []) (fun _ _ => some (500, "oops"))).ops
        = [StoreOp.existsOp "OSU:2023", StoreOp.setOp "OSU:2023"]
    ∧ (gamesHandler "2023" "OSU" (some []) (fun _ _ => some (500, "oops"))).store
        = some [("OSU:2023", Json.str "oops")]
    ∧ respBytes (gamesHandler "2023" "OSU" (some []) (fun _ _ => some (500, "oops"))).resp
        = "oops"
    ∧ (200 : Nat) ≠ 500 :=
  ⟨rfl, rfl, rfl, rfl, by decide⟩

/-- C1, amended: for games requests with a team filter and for rankings
requests whose upstream fetch succeeds at the transport level, the handler
forwards the raw body with status 200 regardless of the upstream status, and
when the store is available it always caches the body under the computed key
(the JSON-decoded value when the body decodes, the raw body as a JSON string
otherwise), regardless of upstream status or structure. -/
theorem c1_games_rankings_forward (year team body body2 : String)
    (status status2 : Nat) (st st2 : Store)
    (fg : String → String → Fetch) (fr : String → Fetch)
    (hteam : team ≠ "")
    (hmiss : storeExists st (gamesCacheKey team year) = false)
    (hfg : fg year team = some (status, body))
    (hmiss2 : storeExists st2 (rankingsCacheKey year) = false)
    (hfr : fr year = some (status2, body2)) :
    (gamesHandler year team (some st) fg).resp = Resp.raw 200 body
    ∧ (gamesHandler year team (some st) fg).store
        = some (cachePopulate st (gamesCacheKey team year) body)
    ∧ (rankingsHandler year (some st2) fr).resp = Resp.raw 200 body2
    ∧ (rankingsHandler year (some st2) fr).store
        = some (cachePopulate st2 (rankingsCacheKey year) body2) := by
  refine ⟨?_, ?_, ?_, ?_⟩
  · simp [gamesHandler, gamesFetchPhase, hteam, hmiss, hfg, gamesCacheKey_ne_empty]
  · simp [gamesHandler, gamesFetchPhase, hteam, hmiss, hfg, gamesCacheKey_ne_empty]
  · simp [rankingsHandler, rankingsFetchPhase, hmiss2, hfr]
  · simp [rankingsHandler, rankingsFetchPhase, hmiss2, hfr]

/-- C1, witness for the amended theorem at a concrete input. -/
theorem c1_witness :
    (gamesHandler "2023" "OSU" (some []) (fun _ _ => some (500, "oops"))).resp
        = Resp.raw 200 "oops"
    ∧ (gamesHandler "2023" "OSU" (some []) (fun _ _ => some (500, "oops"))).store
        = some (cachePopulate [] (gamesCacheKey "OSU" "2023") "oops")
    ∧ (rankingsHandler "2023" (some []) (fun _ => some (503, "bad"))).resp
        = Resp.raw 200 "bad"
    ∧ (rankingsHandler "2023" (some []) (fun _ => some (503, "bad"))).store
        = some (cachePopulate [] (rankingsCacheKey "2023") "bad") :=
  c1_games_rankings_forward "2023" "OSU" "oops" "bad" 500 503 [] []
    (fun _ _ => some (500, "oops")) (fun _ => some (503, "bad"))
    (by decide) rfl rfl rfl rfl

/-- C2 (confirmed): the teams cache key is the single global CFB_TEAMS with
no year dimension.  While the key holds a decodable value, a teams request
returns exactly that value for every year and for every upstream behavior;
and once a request for one year populates the key on a miss, a later request
for any other year is served the value built from the first fetch. -/
theorem c2_teams_global_key :
    (∀ (y1 y2 : String) (st : Store) (v : Json) (f1 f2 : String → Fetch),
        storeGet st "CFB_TEAMS" = some v → (asRecords v).isSome = true →
        teamsHandler y1 (some st) f1 = teamsHandler y2 (some st) f2
        ∧ (teamsHandler y1 (some st) f1).resp = Resp.encoded v)
    ∧ (∀ (y1 y2 : String) (st : Store) (f1 f2 : String → Fetch) (status : Nat)
        (body : String) (raws : List JObj),
        storeGet st "CFB_TEAMS" = none → f1 y1 = some (status, body) →
        decodeTeamsBody body = some raws →
        (teamsHandler y2 (teamsHandler y1 (some st) f1).store f2).resp
          = Resp.encoded (teamsJson (simplifyTeams raws))) := by
  constructor
  · intro y1 y2 st v f1 f2 hget hrec
    have hex : storeExists st "CFB_TEAMS" = true := by simp [storeExists, hget]
    constructor
    · simp [teamsHandler, hex, hget, hrec]
    · simp [teamsHandler, hex, hget, hrec]
  · intro y1 y2 st f1 f2 status body raws hget hfetch hdec
    have hex : storeExists st "CFB_TEAMS" = false := by simp [storeExists, hget]
    have hst : (teamsHandler y1 (some st) f1).store
        = some (storeSet st "CFB_TEAMS" (teamsJson (simplifyTeams raws))) := by
      simp [teamsHandler, teamsFetchPhase, hex, hfetch, hdec]
    rw [hst]
    have hget2 := storeGet_set_self st "CFB_TEAMS" (teamsJson (simplifyTeams raws))
    have hex2 := storeExists_set_self st "CFB_TEAMS" (teamsJson (simplifyTeams raws))
    simp [teamsHandler, hex2, hget2, asRecords_teamsJson_isSome]

/-- C2, witness at a concrete populated store. -/
theorem c2_witness :
    teamsHandler "1999" (some [("CFB_TEAMS", Json.arr [])]) (fun _ => none)
      = teamsHandler "2024" (some [("CFB_TEAMS", Json.arr [])]) (fun _ => some (200, "x"))
    ∧ (teamsHandler "1999" (some [("CFB_TEAMS", Json.arr [])]) (fun _ => none)).resp
      = Resp.encoded (Json.arr []) :=
  c2_teams_global_key.1 "1999" "2024" [("CFB_TEAMS", Json.arr [])] (Json.arr [])
    (fun _ => none) (fun _ => some (200, "x")) rfl rfl

/-- C3, counterexample: the simplified output for the record with id 57 and
school Ohio State carries the alias under the JSON key school, not alias
(the struct tag on the Alias field is school,omitempty), so the claimed
output object with an alias key is wrong: the produced object has keys id,
name, school and no alias key. -/
theorem c3_counterexample :
    GoTeam.toJson (simplifyTeam [("id", Json.num 57), ("school", Json.str "Ohio State")])
      = Json.obj [("id", Json.num 57), ("name", Json.str "Ohio State"),
          ("school", Json.str "Ohio State")]
    ∧ jsonTopKeys (GoTeam.toJson
        (simplifyTeam [("id", Json.num 57), ("school", Json.str "Ohio State")]))
      = ["id", "name", "school"]
    ∧ "alias" ∉ jsonTopKeys (GoTeam.toJson
        (simplifyTeam [("id", Json.num 57), ("school", Json.str "Ohio State")])) :=
  ⟨rfl, rfl, by decide⟩

/-- C3, amended: the record with id 57 and school Ohio State maps to the
JSON output with id 57, name Ohio State, and the alias value Ohio State
serialized under the JSON key school; the record with id 12 and only a name
maps to the output with id 12 and name Fallback U, the school key omitted;
in general name is taken from the school field when it is a non-empty
string, falling back to the name field, and the alias mirrors school. -/
theorem c3_simplify :
    GoTeam.toJson (simplifyTeam [("id", Json.num 57), ("school", Json.str "Ohio State")])
      = Json.obj [("id", Json.num 57), ("name", Json.str "Ohio State"),
          ("school", Json.str "Ohio State")]
    ∧ GoTeam.toJson (simplifyTeam [("id", Json.num 12), ("name", Json.str "Fallback U")])
      = Json.obj [("id", Json.num 12), ("name", Json.str "Fallback U")]
    ∧ (∀ (t : JObj) (s : String), jlookup t "school" = some (Json.str s) → s ≠ "" →
        (simplifyTeam t).name = s ∧ (simplifyTeam t).aliasStr = s)
    ∧ (∀ (t : JObj) (s : String), jlookup t "school" = none →
        jlookup t "name" = some (Json.str s) →
        (simplifyTeam t).name = s ∧ (simplifyTeam t).aliasStr = "") := by
  refine ⟨rfl, rfl, ?_, ?_⟩
  · intro t s hs hne
    have hsf : schoolField t = (s, s) := by unfold schoolField; rw [hs]
    constructor
    · show nameFallback t (schoolField t).1 = s
      rw [hsf]
      unfold nameFallback
      simp [hne]
    · show (schoolField t).2 = s
      rw [hsf]
  · intro t s hs hn
    have hsf : schoolField t = ("", "") := by unfold schoolField; rw [hs]
    constructor
    · show nameFallback t (schoolField t).1 = s
      rw [hsf]
      unfold nameFallback
      simp [hn]
    · show (schoolField t).2 = ""
      rw [hsf]

/-- C3, witness for the amended theorem at a concrete record. -/
theorem c3_witness :
    (simplifyTeam [("school", Json.str "X")]).name = "X"
    ∧ (simplifyTeam [("school", Json.str "X")]).aliasStr = "X" :=
  c3_simplify.2.2.1 [("school", Json.str "X")] "X" rfl (by decide)

/-- C4 (confirmed): every store operation a games request performs uses the
key built by upper-casing the team, replacing spaces with underscores and
appending a colon and the year; Ohio State in 2023 gives OHIO_STATE:2023;
and a request without a team filter performs no store operation at all, so
the key is only constructed when a team filter is present. -/
theorem c4_games_cache_key (team year : String) (st : Store)
    (fg : String → String → Fetch) (hteam : team ≠ "") :
    (∀ op ∈ (gamesHandler year team (some st) fg).ops,
        op.opKey = gamesCacheKey team year)
    ∧ gamesCacheKey "Ohio State" "2023" = "OHIO_STATE:2023"
    ∧ (gamesHandler year "" (some st) fg).ops = [] := by
  refine ⟨?_, rfl, ?_⟩
  · intro op hop
    simp only [gamesHandler, gamesFetchPhase, if_neg hteam] at hop
    repeat' split at hop
    all_goals cases op <;> simp_all [StoreOp.opKey]
  · simp only [gamesHandler, gamesFetchPhase]
    cases fg year "" with
    | none => simp
    | some p => cases p; simp

/-- C4, witness at the concrete team and year of the claim. -/
theorem c4_witness : gamesCacheKey "Ohio State" "2023" = "OHIO_STATE:2023" :=
  (c4_games_cache_key "Ohio State" "2023" [] (fun _ _ => none) (by decide)).2.1

set_option maxHeartbeats 1600000 in
/-- C5 (confirmed): with a simulated current year of 2023 and an empty
store, and every fetch and cache write succeeding, the rankings preloader
populates exactly the 124 keys RANKINGS:1900 through RANKINGS:2023,
processing the years ascending (the newest binding is 2023, the oldest
1900); a year whose key already exists is skipped (its stored value is left
untouched and not re-fetched); and a fetch failure or a cache-write failure
at one year does not abort the loop: every other year is still populated. -/
theorem c5_preload_rankings :
    storeKeys (preloadRankingsCache (fun _ => some (200, "[]")) (fun _ => true) 2023 [])
      = ((List.range' 1900 124).map (fun y => "RANKINGS:" ++ toString y)).reverse
    ∧ (storeKeys (preloadRankingsCache (fun _ => some (200, "[]")) (fun _ => true) 2023 [])).length
      = 124
    ∧ storeGet
        (preloadRankingsCache (fun _ => some (200, "[]")) (fun _ => true) 2023
          [("RANKINGS:1950", Json.str "old")])
        "RANKINGS:1950" = some (Json.str "old")
    ∧ (storeKeys (preloadRankingsCache (fun _ => some (200, "[]")) (fun _ => true) 2023
        [("RANKINGS:1950", Json.str "old")])).length = 124
    ∧ (storeKeys (preloadRankingsCache
        (fun ys => if ys = "1950" then none else some (200, "[]")) (fun _ => true) 2023 [])).length
      = 123
    ∧ "RANKINGS:1950" ∉ storeKeys (preloadRankingsCache
        (fun ys => if ys = "1950" then none else some (200, "[]")) (fun _ => true) 2023 [])
    ∧ "RANKINGS:1951" ∈ storeKeys (preloadRankingsCache
        (fun ys => if ys = "1950" then none else some (200, "[]")) (fun _ => true) 2023 [])
    ∧ "RANKINGS:2023" ∈ storeKeys (preloadRankingsCache
        (fun ys => if ys = "1950" then none else some (200, "[]")) (fun _ => true) 2023 [])
    ∧ (storeKeys (preloadRankingsCache (fun _ => some (200, "[]"))
        (fun y => decide (y ≠ 1960)) 2023 [])).length = 123
    ∧ "RANKINGS:1960" ∉ storeKeys (preloadRankingsCache (fun _ => some (200, "[]"))
        (fun y => decide (y ≠ 1960)) 2023 [])
    ∧ "RANKINGS:1961" ∈ storeKeys (preloadRankingsCache (fun _ => some (200, "[]"))
        (fun y => decide (y ≠ 1960)) 2023 []) :=
  ⟨rfl, rfl, rfl, rfl, rfl, by decide, by decide, by decide, rfl, by decide, by decide⟩

/-- C6, counterexample: a rankings payload that is not JSON (the body oops)
is cached as a raw string, and the next request for the same year re-encodes
that string as a JSON string literal: the response bytes are the quoted form
followed by the encoder's newline, not the original raw bytes. -/
theorem c6_counterexample :
    (rankingsHandler "1950"
        (rankingsHandler "1950" (some []) (fun _ => some (200, "oops"))).store
        (fun _ => none)).resp = Resp.encoded (Json.str "oops")
    ∧ respBytes (rankingsHandler "1950"
        (rankingsHandler "1950" (some []) (fun _ => some (200, "oops"))).store
        (fun _ => none)).resp = "\"oops\"\x0a"
    ∧ "\"oops\"\x0a" ≠ "oops" :=
  ⟨rfl, rfl, by decide⟩

/-- C6, amended: after a rankings request for year Y caches a payload, a
later request for Y is served from the cache and returns a JSON value
structurally identical to what was cached: the decoded value when the
payload was JSON-decodable, and the raw bytes wrapped as a JSON string when
it was not - in the latter case the response bytes are the JSON string
encoding of the original bytes (quoted, escaped, plus the encoder's trailing
newline), not the original raw bytes themselves. -/
theorem c6_rankings_roundtrip (year body : String) (status : Nat) (st : Store)
    (fr f2 : String → Fetch)
    (hmiss : storeExists st (rankingsCacheKey year) = false)
    (hfetch : fr year = some (status, body)) :
    (rankingsHandler year (rankingsHandler year (some st) fr).store f2).resp
      = Resp.encoded (match jsonParse body with | some v => v | none => Json.str body)
    ∧ (jsonParse body = none →
        respBytes (rankingsHandler year (rankingsHandler year (some st) fr).store f2).resp
          = jsonQuote body ++ "\x0a") := by
  have hst : (rankingsHandler year (some st) fr).store
      = some (cachePopulate st (rankingsCacheKey year) body) := by
    simp [rankingsHandler, rankingsFetchPhase, hmiss, hfetch]
  rw [hst]
  cases hp : jsonParse body with
  | some v =>
    have hpop : cachePopulate st (rankingsCacheKey year) body
        = storeSet st (rankingsCacheKey year) v := by
      unfold cachePopulate; rw [hp]
    rw [hpop]
    constructor
    · simp [rankingsHandler, storeExists_set_self, storeGet_set_self]
    · intro hnone; simp at hnone
  | none =>
    have hpop : cachePopulate st (rankingsCacheKey year) body
        = storeSet st (rankingsCacheKey year) (Json.str body) := by
      unfold cachePopulate; rw [hp]
    rw [hpop]
    constructor
    · simp [rankingsHandler, storeExists_set_self, storeGet_set_self]
    · intro _
      have hresp : (rankingsHandler year
          (some (storeSet st (rankingsCacheKey year) (Json.str body))) f2).resp
          = Resp.encoded (Json.str body) := by
        simp [rankingsHandler, storeExists_set_self, storeGet_set_self]
      rw [hresp]
      rfl

/-- C6, witness for the amended theorem: a decodable payload cached on a
miss is served back structurally intact. -/
theorem c6_witness :
    (rankingsHandler "1950"
        (rankingsHandler "1950" (some []) (fun _ => some (200, "[1]"))).store
        (fun _ => none)).resp
      = Resp.encoded (match jsonParse "[1]" with | some v => v | none => Json.str "[1]") :=
  (c6_rankings_roundtrip "1950" "[1]" 200 [] (fun _ => some (200, "[1]"))
    (fun _ => none) rfl rfl).1

/-- C7 (confirmed): when the startup Redis connectivity check fails the
handlers run with a nil store handle for the process lifetime; every games,
rankings and teams request then performs zero store operations, leaves no
store behind, and is answered purely from the upstream fetch (the fetched
body for games and rankings, the simplified or raw-forwarded body for teams,
and a 502 only when upstream itself is unreachable). -/
theorem c7_redis_down_no_ops (y t : String) (st : Store)
    (fg : String → String → Fetch) (ft fr : String → Fetch) :
    gamesHandler y t (startupStore false st) fg
      = ⟨(match fg y t with
          | none => Resp.err 502
          | some (_s, b) => Resp.raw 200 b), none, []⟩
    ∧ rankingsHandler y (startupStore false st) fr
      = ⟨(match fr y with
          | none => Resp.err 502
          | some (_s, b) => Resp.raw 200 b), none, []⟩
    ∧ (teamsHandler y (startupStore false st) ft).ops = []
    ∧ (teamsHandler y (startupStore false st) ft).store = none
    ∧ (teamsHandler y (startupStore false st) ft).resp
      = (match ft y with
         | none => Resp.err 502
         | some (status, body) =>
           match decodeTeamsBody body with
           | none => Resp.raw status body
           | some raws => Resp.encoded (teamsJson (simplifyTeams raws))) := by
  refine ⟨?_, ?_, ?_, ?_, ?_⟩
  · simp only [startupStore, if_neg (by simp : ¬(false = true)), gamesHandler, gamesFetchPhase]
    cases fg y t with
    | none => rfl
    | some p => cases p; simp
  · simp only [startupStore, if_neg (by simp : ¬(false = true)), rankingsHandler,
      rankingsFetchPhase]
    cases fr y with
    | none => rfl
    | some p => cases p; simp
  · simp only [startupStore, if_neg (by simp : ¬(false = true)), teamsHandler, teamsFetchPhase]
    cases ft y with
    | none => rfl
    | some p =>
      cases p with
      | mk s b => cases hd : decodeTeamsBody b <;> simp [teamsFetchPhase, hd]
  · simp only [startupStore, if_neg (by simp : ¬(false = true)), teamsHandler, teamsFetchPhase]
    cases ft y with
    | none => rfl
    | some p =>
      cases p with
      | mk s b => cases hd : decodeTeamsBody b <;> simp [teamsFetchPhase, hd]
  · simp only [startupStore, if_neg (by simp : ¬(false = true)), teamsHandler, teamsFetchPhase]
    cases ft y with
    | none => rfl
    | some p =>
      cases p with
      | mk s b =>
        cases hd : decodeTeamsBody b <;> simp [teamsFetchPhase, hd]

/-- C8 (confirmed): a games request without a team query parameter performs
no store operation and leaves the store exactly as it was, and its response
is determined by the upstream fetch alone. -/
theorem c8_games_no_team_frame (year : String) (st : Store)
    (fg : String → String → Fetch) :
    (gamesHandler year "" (some st) fg).ops = []
    ∧ (gamesHandler year "" (some st) fg).store = some st
    ∧ (gamesHandler year "" (some st) fg).resp
      = (match fg year "" with
         | none => Resp.err 502
         | some (_s, b) => Resp.raw 200 b) := by
  simp only [gamesHandler, gamesFetchPhase]
  cases fg year "" with
  | none => simp
  | some p => cases p; simp

/-- C9, counterexample: the teams preload upstream call is issued with a
10-second client timeout, not the 30 seconds the claim asserts for every
bulk preload call. -/
theorem c9_counterexample :
    preloadTeamsTimeoutSec = 10 ∧ preloadTeamsTimeoutSec ≠ 30 := by
  decide

/-- C9, amended: the three on-demand handler calls use a 10-second timeout,
the rankings preload uses a 30-second timeout, and the teams preload uses a
10-second timeout. -/
theorem c9_timeouts :
    gamesHandlerTimeoutSec = 10 ∧ teamsHandlerTimeoutSec = 10
    ∧ rankingsHandlerTimeoutSec = 10 ∧ preloadRankingsTimeoutSec = 30
    ∧ preloadTeamsTimeoutSec = 10 := by
  decide

/-- C10 (confirmed): the teams simplification (shared verbatim by the
handler and the teams preloader) yields exactly one output entry per
upstream record, in order, so the output length always equals the input
length; a record lacking id, school and name still yields an entry whose id
is the nil interface (JSON null) and whose name is the empty string, the
school key being omitted. -/
theorem c10_simplify_total :
    (∀ raws : List JObj, simplifyTeams raws = raws.map simplifyTeam)
    ∧ (∀ raws : List JObj, (simplifyTeams raws).length = raws.length)
    ∧ simplifyTeam [] = ⟨Json.null, "", ""⟩
    ∧ GoTeam.toJson (simplifyTeam [])
      = Json.obj [("id", Json.null), ("name", Json.str "")] := by
  refine ⟨simplifyTeams_eq_map, ?_, rfl, rfl⟩
  intro raws
  rw [simplifyTeams_eq_map]
  simp
